import Mathlib

/-!
Shallow embedding of `core/engine/src/environments/runtime/mod.rs` (the runtime
environment subsystem of the boa ECMAScript engine): `BindingLocator`,
`EnvironmentStack`, the declarative/private environment records they manage,
and the locator-driven resolution routines on `Context`.

Rust `Vec` stacks are lists with the *top at the end* (push = append), so
Rust `stack[i]` is `stack.get? i` and `stack.iter().rev()` is `stack.reverse`.
Interior mutability (`Gc` + cells) is modelled by value-passing: an operation
returns the updated stack/record.  Machine integers (`u32`) are `Nat`, with an
explicit `% 2 ^ 32` at the one place arithmetic can overflow.

The record internals (`declarative.rs`, `private.rs`) and the external
collaborators (`CompileTimeEnvironment`, the object model, `Array::init`) are
not part of the given source; their definitions below are modelled from the
spec and marked as such.
-/

set_option maxHeartbeats 1000000

/-- Abstract model of `JsValue`: an opaque universe of values with decidable
equality; `undefined` is distinguished because `this`-resolution mentions it. -/
inductive JsValue where
  | undefined
  | val (n : Nat)
deriving DecidableEq, Repr

/-- Abstract model of `JsError` (the payload of `JsResult::Err`). -/
abbrev JsError := String

/-- Model of `JsString` (binding names). -/
abbrev JsString := String

/-- `BindingLocatorEnvironment` from `mod.rs`: the decoded environment of a
binding locator. -/
inductive BindingLocatorEnvironment where
  | GlobalObject
  | GlobalDeclarative
  | Stack (index : Nat)
deriving DecidableEq, Repr

/-- Modelled from the spec: the compile-time binding returned by
`CompileTimeEnvironment::get_binding` exposes an environment and a slot index
(`b.environment()` / `b.binding_index()` in `find_runtime_binding`). -/
structure CompileBinding where
  environment : BindingLocatorEnvironment
  binding_index : Nat

/-- Modelled from the spec: `CompileTimeEnvironment` is an external, read-only
per-scope descriptor with `num_bindings()`, `is_function()` and
`get_binding(name)`. -/
structure CompileTimeEnvironment where
  num_bindings : Nat
  is_function : Bool
  get_binding : JsString → Option CompileBinding

/-- Modelled from the spec: `ThisBindingStatus` tri-state. -/
inductive ThisBindingStatus where
  | Lexical
  | Initialized
  | Uninitialized
deriving DecidableEq, Repr

/-- Modelled from the spec: `FunctionSlots` — the `this` value, its binding
status, the `new.target`, and an optional home object. -/
structure FunctionSlots where
  this : JsValue
  this_binding_status : ThisBindingStatus
  new_target : Option JsValue
  home_object : Option JsValue
deriving DecidableEq, Repr

/-- Modelled from the spec: `DeclarativeEnvironmentKind` — Global, Function
(with its slots), Lexical, Module.  The Global kind carries the realm's global
`this` value, which its `get_this_binding` returns. -/
inductive DeclarativeEnvironmentKind where
  | Global (global_this : JsValue)
  | Function (slots : FunctionSlots)
  | Lexical
  | Module
deriving DecidableEq, Repr

/-- Modelled from the spec (`declarative.rs` is not part of the given source):
a `DeclarativeEnvironment` record — a kind, the two sticky flags `poisoned`
and `with` (the latter renamed `isWith`, `with` being reserved), a dense
vector of optional binding values (`none` = uninitialized/TDZ), and the
`CompileTimeEnvironment` that shaped it. -/
structure DeclarativeEnvironment where
  kind : DeclarativeEnvironmentKind
  poisoned : Bool
  isWith : Bool
  bindings : List (Option JsValue)
  compile_env : CompileTimeEnvironment

/-- Modelled from the spec: `LexicalEnvironment::new(num_bindings, poisoned,
with)` wrapped in `DeclarativeEnvironment::new`, as built by `push_lexical`. -/
def DeclarativeEnvironment.newLexical (num_bindings : Nat) (poisoned isWith : Bool)
    (compile_env : CompileTimeEnvironment) : DeclarativeEnvironment :=
  { kind := .Lexical, poisoned, isWith
    bindings := List.replicate num_bindings none, compile_env }

/-- Modelled from the spec: `FunctionEnvironment::new(num_bindings, poisoned,
with, function_slots)` wrapped in `DeclarativeEnvironment::new`, as built by
`push_function`. -/
def DeclarativeEnvironment.newFunction (num_bindings : Nat) (poisoned isWith : Bool)
    (function_slots : FunctionSlots) (compile_env : CompileTimeEnvironment) :
    DeclarativeEnvironment :=
  { kind := .Function function_slots, poisoned, isWith
    bindings := List.replicate num_bindings none, compile_env }

/-- Modelled from the spec: `ModuleEnvironment::new(num_bindings)` wrapped in
`DeclarativeEnvironment::new`; modules inherit no flags. -/
def DeclarativeEnvironment.newModule (num_bindings : Nat)
    (compile_env : CompileTimeEnvironment) : DeclarativeEnvironment :=
  { kind := .Module, poisoned := false, isWith := false
    bindings := List.replicate num_bindings none, compile_env }

/-- Modelled from the spec: `poison()` sets the poisoned flag (idempotent). -/
def DeclarativeEnvironment.poison (e : DeclarativeEnvironment) : DeclarativeEnvironment :=
  { e with poisoned := true }

/-- Modelled from the spec: `get(slot)` — O(1) indexed read, `none` means
uninitialized. -/
def DeclarativeEnvironment.get (e : DeclarativeEnvironment) (index : Nat) : Option JsValue :=
  (e.bindings.get? index).getD none

/-- Modelled from the spec: `set(slot, value)` — O(1) indexed write. -/
def DeclarativeEnvironment.set (e : DeclarativeEnvironment) (index : Nat) (value : JsValue) :
    DeclarativeEnvironment :=
  { e with bindings := e.bindings.set index (some value) }

/-- Modelled from the spec: `has_this_binding()` — true for Global, Module,
and Function kinds whose `ThisBindingStatus` is not `Lexical`. -/
def DeclarativeEnvironment.has_this_binding (e : DeclarativeEnvironment) : Bool :=
  match e.kind with
  | .Global _ => true
  | .Module => true
  | .Function slots => slots.this_binding_status != .Lexical
  | .Lexical => false

/-- Modelled from the spec: `DeclarativeEnvironment::get_this_binding` —
`Ok(Some v)` for an initialized function `this`, a ReferenceError for an
uninitialized one (derived constructor before `super()`), `Ok(Some global_this)`
for Global, `Ok(Some undefined)` for Module, and `Ok(None)` when the record
carries no `this` at all (Lexical records, arrow-function records). -/
def DeclarativeEnvironment.get_this_binding (e : DeclarativeEnvironment) :
    Except JsError (Option JsValue) :=
  match e.kind with
  | .Global global_this => .ok (some global_this)
  | .Module => .ok (some .undefined)
  | .Lexical => .ok none
  | .Function slots =>
    match slots.this_binding_status with
    | .Lexical => .ok none
    | .Initialized => .ok (some slots.this)
    | .Uninitialized =>
      .error "ReferenceError: must call super constructor before accessing this"

/-- Modelled from the spec: the object-model interface consumed by this
subsystem (`has_property`, `get`/`try_get`, `set`, `[[Delete]]`, and the
`@@unscopables` protocol).  Property operations are modelled as pure result
maps; `unscopables_obj` models `o.get(@@unscopables).as_object()`, and the
contained function models `unscopables.get(key).to_boolean()`. -/
structure JsObjectModel where
  has_property : JsString → Except JsError Bool
  unscopables_obj : Except JsError (Option (JsString → Except JsError Bool))
  get : JsString → Except JsError JsValue
  try_get : JsString → Except JsError (Option JsValue)
  set : JsString → JsValue → Bool → Except JsError Unit
  delete : JsString → Except JsError Bool

/-- `Environment` from `mod.rs`: one stack slot is either a declarative record
or an object environment. -/
inductive Environment where
  | Declarative (env : DeclarativeEnvironment)
  | Object (obj : JsObjectModel)

/-- `Environment::as_declarative`. -/
def Environment.as_declarative : Environment → Option DeclarativeEnvironment
  | .Declarative env => some env
  | .Object _ => none

/-- Modelled from the spec (`private.rs` is not part of the given source):
a `PrivateEnvironment` — a stable numeric id and an ordered list of
private-name descriptions. -/
structure PrivateEnvironment where
  id : Nat
  descriptions : List JsString
deriving DecidableEq, Repr

/-- Modelled from the spec: a `PrivateName` — a description paired with the id
of the `PrivateEnvironment` that resolved it. -/
structure PrivateName where
  description : JsString
  id : Nat
deriving DecidableEq, Repr

/-- `PrivateName::new(description, id)`. -/
def PrivateName.new (description : JsString) (id : Nat) : PrivateName :=
  { description, id }

/-- `EnvironmentStack` from `mod.rs`: the environment stack, the distinguished
global declarative record, and the private-environment stack. -/
structure EnvironmentStack where
  stack : List Environment
  global : DeclarativeEnvironment
  private_stack : List PrivateEnvironment

/-- `EnvironmentStack::outer_function_environment`: the nearest Function-kind
declarative record from the top, defaulting to the global. -/
def outerFunctionLoop : List Environment → Option DeclarativeEnvironment
  | [] => none
  | .Declarative env :: rest =>
    match env.kind with
    | .Function _ => some env
    | _ => outerFunctionLoop rest
  | .Object _ :: rest => outerFunctionLoop rest

/-- `EnvironmentStack::outer_function_environment`. -/
def EnvironmentStack.outer_function_environment (s : EnvironmentStack) :
    DeclarativeEnvironment :=
  (outerFunctionLoop s.stack.reverse).getD s.global

/-- `EnvironmentStack::pop_to_global`: swaps the stack with an empty one and
returns the removed environments. -/
def EnvironmentStack.pop_to_global (s : EnvironmentStack) :
    List Environment × EnvironmentStack :=
  (s.stack, { s with stack := [] })

/-- `EnvironmentStack::len`. -/
def EnvironmentStack.len (s : EnvironmentStack) : Nat :=
  s.stack.length

/-- `EnvironmentStack::truncate`. -/
def EnvironmentStack.truncate (s : EnvironmentStack) (len : Nat) : EnvironmentStack :=
  { s with stack := s.stack.take len }

/-- `EnvironmentStack::extend`. -/
def EnvironmentStack.extend (s : EnvironmentStack) (other : List Environment) :
    EnvironmentStack :=
  { s with stack := s.stack ++ other }

/-- The loop of `EnvironmentStack::get_this_environment`, on the reversed
stack (top first): first declarative record with `has_this_binding`. -/
def getThisEnvironmentLoop : List Environment → Option DeclarativeEnvironment
  | [] => none
  | env :: rest =>
    match env.as_declarative with
    | some decl => if decl.has_this_binding then some decl else getThisEnvironmentLoop rest
    | none => getThisEnvironmentLoop rest

/-- `EnvironmentStack::get_this_environment` (`GetThisEnvironment`): the kind
of the first declarative record with a `this` binding, defaulting to the
global's kind. -/
def EnvironmentStack.get_this_environment (s : EnvironmentStack) :
    DeclarativeEnvironmentKind :=
  match getThisEnvironmentLoop s.stack.reverse with
  | some decl => decl.kind
  | none => s.global.kind

/-- The loop of `EnvironmentStack::get_this_binding`, on the reversed stack
(top first): first declarative record whose own `get_this_binding` yields a
value; errors propagate; `Ok(None)` after the loop. -/
def getThisBindingLoop : List Environment → Except JsError (Option JsValue)
  | [] => .ok none
  | .Declarative decl :: rest =>
    match decl.get_this_binding with
    | .error e => .error e
    | .ok (some this) => .ok (some this)
    | .ok none => getThisBindingLoop rest
  | .Object _ :: rest => getThisBindingLoop rest

/-- `EnvironmentStack::get_this_binding` (`GetThisBinding`): note that, unlike
`get_this_environment`, the loop falls through to `Ok(None)` without
consulting the global record. -/
def EnvironmentStack.get_this_binding (s : EnvironmentStack) :
    Except JsError (Option JsValue) :=
  getThisBindingLoop s.stack.reverse

/-- `EnvironmentStack::push_object`. -/
def EnvironmentStack.push_object (s : EnvironmentStack) (object : JsObjectModel) :
    EnvironmentStack :=
  { s with stack := s.stack ++ [.Object object] }

/-- The flag computation shared by `push_lexical` and `push_function`: `with`
is set when the top of the stack exists and is not declarative; the nearest
declarative record on the stack (the global if none) supplies `poisoned` and
is OR-ed into `with`. -/
def EnvironmentStack.inheritedFlags (s : EnvironmentStack) : Bool × Bool :=
  let w :=
    match s.stack.getLast? with
    | some env => env.as_declarative.isNone
    | none => false
  let environment := (s.stack.reverse.findSome? Environment.as_declarative).getD s.global
  (environment.poisoned, w || environment.isWith)

/-- `EnvironmentStack::push_lexical`: pushes a Lexical record with inherited
flags and returns its index (the stack length before the push). -/
def EnvironmentStack.push_lexical (s : EnvironmentStack)
    (compile_environment : CompileTimeEnvironment) : Nat × EnvironmentStack :=
  let num_bindings := compile_environment.num_bindings
  let flags := s.inheritedFlags
  let index := s.stack.length
  (index,
    { s with
      stack := s.stack ++
        [.Declarative
          (DeclarativeEnvironment.newLexical num_bindings flags.1 flags.2
            compile_environment)] })

/-- `EnvironmentStack::push_function`: pushes a Function record with inherited
flags. -/
def EnvironmentStack.push_function (s : EnvironmentStack)
    (compile_environment : CompileTimeEnvironment) (function_slots : FunctionSlots) :
    EnvironmentStack :=
  let num_bindings := compile_environment.num_bindings
  let flags := s.inheritedFlags
  { s with
    stack := s.stack ++
      [.Declarative
        (DeclarativeEnvironment.newFunction num_bindings flags.1 flags.2 function_slots
          compile_environment)] }

/-- `EnvironmentStack::push_module`: pushes a Module record (no flags). -/
def EnvironmentStack.push_module (s : EnvironmentStack)
    (compile_environment : CompileTimeEnvironment) : EnvironmentStack :=
  let num_bindings := compile_environment.num_bindings
  { s with
    stack := s.stack ++
      [.Declarative (DeclarativeEnvironment.newModule num_bindings compile_environment)] }

/-- `EnvironmentStack::pop`: removes the top environment (the debug assertion
that the stack is nonempty is a caller obligation; popping an empty stack is
modelled as the identity). -/
def EnvironmentStack.pop (s : EnvironmentStack) : EnvironmentStack :=
  { s with stack := s.stack.dropLast }

/-- `EnvironmentStack::current_declarative_ref`: `as_declarative` of the top
of the stack when the stack is nonempty (so `none` when the top is an Object
environment), and the global record when the stack is empty. -/
def EnvironmentStack.current_declarative_ref (s : EnvironmentStack) :
    Option DeclarativeEnvironment :=
  match s.stack.getLast? with
  | some env => env.as_declarative
  | none => some s.global

/-- `EnvironmentStack::current_compile_environment`: the `compile_env` of the
last declarative record on the stack, defaulting to the global's. -/
def EnvironmentStack.current_compile_environment (s : EnvironmentStack) :
    CompileTimeEnvironment :=
  match s.stack.reverse.findSome? Environment.as_declarative with
  | some env => env.compile_env
  | none => s.global.compile_env

/-- The loop of `EnvironmentStack::poison_until_last_function`, on the
reversed stack (top first): poison every declarative record, stopping (with
`true`) right after one whose compile environment is a function scope.
Returns the rewritten reversed stack and whether the walk stopped early. -/
def poisonUntilLoop : List Environment → List Environment × Bool
  | [] => ([], false)
  | .Declarative env :: rest =>
    if env.compile_env.is_function then
      (.Declarative env.poison :: rest, true)
    else
      let r := poisonUntilLoop rest
      (.Declarative env.poison :: r.1, r.2)
  | .Object obj :: rest =>
    let r := poisonUntilLoop rest
    (.Object obj :: r.1, r.2)

/-- `EnvironmentStack::poison_until_last_function`: top-down walk poisoning
every declarative record up to and including the nearest one whose compile
environment `is_function`; when none is found, the global is poisoned too. -/
def EnvironmentStack.poison_until_last_function (s : EnvironmentStack) :
    EnvironmentStack :=
  let r := poisonUntilLoop s.stack.reverse
  if r.2 then
    { s with stack := r.1.reverse }
  else
    { s with stack := r.1.reverse, global := s.global.poison }

/-- `EnvironmentStack::push_private`. -/
def EnvironmentStack.push_private (s : EnvironmentStack)
    (environment : PrivateEnvironment) : EnvironmentStack :=
  { s with private_stack := s.private_stack ++ [environment] }

/-- `EnvironmentStack::pop_private`. -/
def EnvironmentStack.pop_private (s : EnvironmentStack) : EnvironmentStack :=
  { s with private_stack := s.private_stack.dropLast }

/-- The loop of `EnvironmentStack::resolve_private_identifier`, on the
reversed private stack (innermost first): first environment whose
descriptions contain the identifier. -/
def resolvePrivateLoop (identifier : JsString) :
    List PrivateEnvironment → Option PrivateName
  | [] => none
  | environment :: rest =>
    if identifier ∈ environment.descriptions then
      some (PrivateName.new identifier environment.id)
    else
      resolvePrivateLoop identifier rest

/-- `EnvironmentStack::resolve_private_identifier` (`ResolvePrivateIdentifier`). -/
def EnvironmentStack.resolve_private_identifier (s : EnvironmentStack)
    (identifier : JsString) : Option PrivateName :=
  resolvePrivateLoop identifier s.private_stack.reverse

/-- The loop of `EnvironmentStack::private_name_descriptions`: top-down union
of descriptions, de-duplicated preserving first-seen order. -/
def privateNameDescriptionsLoop : List PrivateEnvironment → List JsString → List JsString
  | [], names => names
  | environment :: rest, names =>
    privateNameDescriptionsLoop rest
      (environment.descriptions.foldl
        (fun acc name => if name ∈ acc then acc else acc ++ [name]) names)

/-- `EnvironmentStack::private_name_descriptions`. -/
def EnvironmentStack.private_name_descriptions (s : EnvironmentStack) : List JsString :=
  privateNameDescriptionsLoop s.private_stack.reverse []

/-- `EnvironmentStack::has_object_environment`. -/
def EnvironmentStack.has_object_environment (s : EnvironmentStack) : Bool :=
  s.stack.any fun env =>
    match env with
    | .Object _ => true
    | .Declarative _ => false

/-- `EnvironmentStack::put_lexical_value`: a direct slot write through a
`BindingLocatorEnvironment`; the `expect` on a non-declarative stack slot (a
caller obligation) is modelled as a no-op. -/
def EnvironmentStack.put_lexical_value (s : EnvironmentStack)
    (environment : BindingLocatorEnvironment) (binding_index : Nat) (value : JsValue) :
    EnvironmentStack :=
  match environment with
  | .GlobalObject | .GlobalDeclarative =>
    { s with global := s.global.set binding_index value }
  | .Stack index =>
    match s.stack.get? index with
    | some (.Declarative env) =>
      { s with stack := s.stack.set index (.Declarative (env.set binding_index value)) }
    | _ => s

/-- `EnvironmentStack::put_value_if_uninitialized`: like `put_lexical_value`
but only when the slot currently reads `none`. -/
def EnvironmentStack.put_value_if_uninitialized (s : EnvironmentStack)
    (environment : BindingLocatorEnvironment) (binding_index : Nat) (value : JsValue) :
    EnvironmentStack :=
  match environment with
  | .GlobalObject | .GlobalDeclarative =>
    if (s.global.get binding_index).isNone then
      { s with global := s.global.set binding_index value }
    else s
  | .Stack index =>
    match s.stack.get? index with
    | some (.Declarative env) =>
      if (env.get binding_index).isNone then
        { s with stack := s.stack.set index (.Declarative (env.set binding_index value)) }
      else s
    | _ => s

/-- `u32` modulus for the one overflowing arithmetic op in `BindingLocator`. -/
def u32Size : Nat := 2 ^ 32

/-- `BindingLocator` from `mod.rs`: name, raw `u32` environment encoding
(0 = global object, 1 = global declarative, n = stack at n − 2), slot index. -/
structure BindingLocator where
  name : JsString
  environment_raw : Nat
  binding_index : Nat
deriving DecidableEq, Repr

/-- `BindingLocator::declarative(name, environment_index, binding_index)`:
stores `environment_index + 1` as the raw environment. -/
def BindingLocator.declarative (name : JsString) (environment_index : Nat)
    (binding_index : Nat) : BindingLocator :=
  { name, environment_raw := (environment_index + 1) % u32Size, binding_index }

/-- `BindingLocator::global(name)`. -/
def BindingLocator.global (name : JsString) : BindingLocator :=
  { name, environment_raw := 0, binding_index := 0 }

/-- `BindingLocator::is_global`. -/
def BindingLocator.is_global (l : BindingLocator) : Bool :=
  l.environment_raw == 0

/-- `BindingLocator::environment`: decodes the raw `u32`. -/
def BindingLocator.environment (l : BindingLocator) : BindingLocatorEnvironment :=
  match l.environment_raw with
  | 0 => .GlobalObject
  | 1 => .GlobalDeclarative
  | n => .Stack (n - 2)

/-- `BindingLocator::set_environment`: re-encodes into the raw `u32`. -/
def BindingLocator.set_environment (l : BindingLocator)
    (environment : BindingLocatorEnvironment) : BindingLocator :=
  { l with
    environment_raw :=
      match environment with
      | .GlobalObject => 0
      | .GlobalDeclarative => 1
      | .Stack index => (index + 2) % u32Size }

/-- The direct field assignment `locator.binding_index = b.binding_index()` in
`find_runtime_binding`. -/
def BindingLocator.with_binding_index (l : BindingLocator) (binding_index : Nat) :
    BindingLocator :=
  { l with binding_index }

/-- Model of the `Context` slice this subsystem touches: its environment
stack, the realm's global object, and the `Array` intrinsic initialization
(modelled from the spec: `Array::init` belongs to the intrinsics layer; it is
modelled as an abstract transformation `install_array` of the global object
plus a counter of how many times it ran). -/
structure Context where
  environments : EnvironmentStack
  globalObject : JsObjectModel
  install_array : JsObjectModel → JsObjectModel
  arrayInitCalls : Nat

/-- Modelled from the spec: `Array::init(self.realm())` — lazily materializes
the `Array` intrinsic on the realm's global object. -/
def Context.arrayInit (c : Context) : Context :=
  { c with
    globalObject := c.install_array c.globalObject
    arrayInitCalls := c.arrayInitCalls + 1 }

/-- `Context::environment_expect(index)`: `stack[index]`, whose out-of-range
panic (a caller obligation) is modelled via `Option`. -/
def Context.environment_expect (c : Context) (index : Nat) : Option Environment :=
  c.environments.stack.get? index

/-- Whether the fast path of `Context::find_runtime_binding` applies: the
`if let Some(env) = current_declarative_ref()` check with
`!env.with() && !env.poisoned()`. -/
def Context.findRuntimeBindingFastPath (c : Context) : Bool :=
  match c.environments.current_declarative_ref with
  | some env => !env.isWith && !env.poisoned
  | none => false

/-- The scan loop of `Context::find_runtime_binding` over the given stack
indices (already ordered top-down, i.e. `(min_index..max_index).rev()`).
`ok (some l)` models an early `return Ok(())` with the locator rewritten to
`l` (or left as given); `ok none` models falling through the loop. -/
def findRuntimeBindingLoop (c : Context) (locator : BindingLocator) :
    List Nat → Except JsError (Option BindingLocator)
  | [] => .ok none
  | index :: rest =>
    match c.environment_expect index with
    | some (.Declarative env) =>
      if env.poisoned then
        if env.compile_env.is_function then
          match env.compile_env.get_binding locator.name with
          | some b =>
            .ok (some ((locator.set_environment b.environment).with_binding_index
              b.binding_index))
          | none => findRuntimeBindingLoop c locator rest
        else
          findRuntimeBindingLoop c locator rest
      else if !env.isWith then
        .ok (some locator)
      else
        findRuntimeBindingLoop c locator rest
    | some (.Object o) =>
      match o.has_property locator.name with
      | .error e => .error e
      | .ok true =>
        match o.unscopables_obj with
        | .error e => .error e
        | .ok (some unscopables) =>
          match unscopables locator.name with
          | .error e => .error e
          | .ok true => findRuntimeBindingLoop c locator rest
          | .ok false => .ok (some (locator.set_environment (.Stack index)))
        | .ok none => .ok (some (locator.set_environment (.Stack index)))
      | .ok false => findRuntimeBindingLoop c locator rest
    | none => findRuntimeBindingLoop c locator rest

/-- The tail of `Context::find_runtime_binding`: when the locator was global
and the scan fell through, a poisoned global consults the global compile
environment and rewrites the locator if a binding of the name exists. -/
def findRuntimeBindingGlobalTail (c : Context) (locator : BindingLocator) :
    BindingLocator :=
  let env := c.environments.global
  if env.poisoned then
    match env.compile_env.get_binding locator.name with
    | some b =>
      (locator.set_environment b.environment).with_binding_index b.binding_index
    | none => locator
  else
    locator

/-- `Context::find_runtime_binding`: returns the (possibly rewritten) locator
in place of mutating it.  In this model, property queries on object
environments are pure, so the context itself is unchanged. -/
def Context.find_runtime_binding (c : Context) (locator : BindingLocator) :
    Except JsError BindingLocator :=
  if c.findRuntimeBindingFastPath then
    .ok locator
  else
    let p :=
      match locator.environment with
      | .GlobalObject | .GlobalDeclarative => (true, 0)
      | .Stack index => (false, index)
    let max_index := c.environments.stack.length
    match findRuntimeBindingLoop c locator ((List.range' p.2 (max_index - p.2)).reverse) with
    | .error e => .error e
    | .ok (some l) => .ok l
    | .ok none =>
      if p.1 then
        .ok (findRuntimeBindingGlobalTail c locator)
      else
        .ok locator

/-- `Context::get_binding`: reads through a locator.  The global-object path
initializes the `Array` intrinsic first when the name is `"Array"`, then does
a `try_get` on the (possibly updated) global object.  Returns the read result
together with the updated context. -/
def Context.get_binding (c : Context) (locator : BindingLocator) :
    Except JsError (Option JsValue) × Context :=
  match locator.environment with
  | .GlobalObject =>
    let key := locator.name
    let c1 := if key = "Array" then c.arrayInit else c
    (c1.globalObject.try_get key, c1)
  | .GlobalDeclarative =>
    (.ok (c.environments.global.get locator.binding_index), c)
  | .Stack index =>
    match c.environment_expect index with
    | some (.Declarative env) => (.ok (env.get locator.binding_index), c)
    | some (.Object obj) => ((obj.get locator.name).map some, c)
    | none => (.error "panic: environment index must be in range", c)

/-- `Context::set_binding`: writes through a locator; declarative targets are
indexed writes into the stack or the global record, object targets delegate to
the object model honoring `strict`. -/
def Context.set_binding (c : Context) (locator : BindingLocator) (value : JsValue)
    (strict : Bool) : Except JsError Unit × Context :=
  match locator.environment with
  | .GlobalObject =>
    (c.globalObject.set locator.name value strict, c)
  | .GlobalDeclarative =>
    (.ok (),
      { c with
        environments :=
          { c.environments with
            global := c.environments.global.set locator.binding_index value } })
  | .Stack index =>
    match c.environment_expect index with
    | some (.Declarative decl) =>
      (.ok (),
        { c with
          environments :=
            { c.environments with
              stack := c.environments.stack.set index
                (.Declarative (decl.set locator.binding_index value)) } })
    | some (.Object obj) => (obj.set locator.name value strict, c)
    | none => (.error "panic: environment index must be in range", c)

/-- `Context::is_initialized_binding`: property-existence or `Some(_)` check
per the four locator cases. -/
def Context.is_initialized_binding (c : Context) (locator : BindingLocator) :
    Except JsError Bool :=
  match locator.environment with
  | .GlobalObject => c.globalObject.has_property locator.name
  | .GlobalDeclarative => .ok (c.environments.global.get locator.binding_index).isSome
  | .Stack index =>
    match c.environment_expect index with
    | some (.Declarative env) => .ok (env.get locator.binding_index).isSome
    | some (.Object obj) => obj.has_property locator.name
    | none => .error "panic: environment index must be in range"

/-- `Context::delete_binding`: `[[Delete]]` on object targets; declarative
bindings are never deletable (`false`). -/
def Context.delete_binding (c : Context) (locator : BindingLocator) :
    Except JsError Bool :=
  match locator.environment with
  | .GlobalObject => c.globalObject.delete locator.name
  | .GlobalDeclarative => .ok false
  | .Stack index =>
    match c.environment_expect index with
    | some (.Declarative _) => .ok false
    | some (.Object obj) => obj.delete locator.name
    | none => .error "panic: environment index must be in range"

/-! ## Concrete fixtures for witnesses and counterexamples -/

/-- A trivial compile-time environment used in concrete examples. -/
def exCompileEnv : CompileTimeEnvironment :=
  { num_bindings := 0, is_function := false, get_binding := fun _ => none }

/-- A concrete global record (kind Global, flags clear) used in examples. -/
def exGlobal : DeclarativeEnvironment :=
  { kind := .Global (.val 0), poisoned := false, isWith := false
    bindings := [], compile_env := exCompileEnv }

/-- An inert object model used in concrete examples. -/
def exObject : JsObjectModel :=
  { has_property := fun _ => .ok false
    unscopables_obj := .ok none
    get := fun _ => .ok .undefined
    try_get := fun _ => .ok none
    set := fun _ _ _ => .ok ()
    delete := fun _ => .ok false }

/-- A concrete lexical record used in concrete examples. -/
def exLexical : DeclarativeEnvironment :=
  { kind := .Lexical, poisoned := false, isWith := false
    bindings := [], compile_env := exCompileEnv }

/-- A concrete context with an empty environment stack. -/
def exContext : Context :=
  { environments := { stack := [], global := exGlobal, private_stack := [] }
    globalObject := exObject, install_array := id, arrayInitCalls := 0 }

/-! ## C1 -/

/-- C1: when `current_declarative_ref` yields a record with neither `with` nor
`poisoned` set, `find_runtime_binding` takes the fast path: it returns `Ok`
and leaves the locator (name, environment encoding and binding index)
unchanged — hence repeated calls in that state are no-ops. -/
theorem find_runtime_binding_fast_path_noop (c : Context) (locator : BindingLocator)
    (env : DeclarativeEnvironment)
    (h1 : c.environments.current_declarative_ref = some env)
    (h2 : env.isWith = false) (h3 : env.poisoned = false) :
    c.find_runtime_binding locator = .ok locator := by
  have hf : c.findRuntimeBindingFastPath = true := by
    simp [Context.findRuntimeBindingFastPath, h1, h2, h3]
  simp [Context.find_runtime_binding, hf]

/-- Witness for C1 at a concrete context (empty stack, unpoisoned non-with
global). -/
theorem find_runtime_binding_fast_path_noop_witness :
    exContext.environments.current_declarative_ref = some exGlobal ∧
    exGlobal.isWith = false ∧ exGlobal.poisoned = false ∧
    exContext.find_runtime_binding (BindingLocator.global "x") =
      .ok (BindingLocator.global "x") :=
  ⟨rfl, rfl, rfl,
    find_runtime_binding_fast_path_noop exContext (BindingLocator.global "x") exGlobal
      rfl rfl rfl⟩

/-! ## C2 -/

/-- C2 counterexample: `declarative(name, env_idx, slot)` does not decode to
`Stack(env_idx)` — the constructor stores `env_idx + 1`, so at `env_idx = 0`
the decoded environment is the global declarative record. -/
theorem binding_locator_declarative_not_stack_roundtrip :
    (BindingLocator.declarative "x" 0 7).environment = .GlobalDeclarative ∧
    (BindingLocator.declarative "x" 0 7).environment ≠ .Stack 0 := by
  exact ⟨rfl, by decide⟩

/-- C2 amended: `declarative(name, env_idx, slot)` decodes to the global
declarative record when `env_idx = 0` and to `Stack(env_idx - 1)` when
`env_idx ≥ 1` (no `u32` overflow), with `binding_index() = slot`; and
`global(name)` has `is_global()` and decodes to the global object. -/
theorem binding_locator_roundtrip (name : JsString)
    (environment_index binding_index : Nat) (h : environment_index + 1 < u32Size) :
    (BindingLocator.declarative name 0 binding_index).environment =
      .GlobalDeclarative ∧
    (1 ≤ environment_index →
      (BindingLocator.declarative name environment_index binding_index).environment =
        .Stack (environment_index - 1)) ∧
    (BindingLocator.declarative name environment_index binding_index).binding_index =
      binding_index ∧
    (BindingLocator.global name).is_global = true ∧
    (BindingLocator.global name).environment = .GlobalObject := by
  refine ⟨rfl, ?_, rfl, rfl, rfl⟩
  intro h1
  obtain ⟨m, rfl⟩ : ∃ m, environment_index = m + 1 := ⟨environment_index - 1, by omega⟩
  have hm : (m + 1 + 1) % u32Size = m + 2 := Nat.mod_eq_of_lt (by omega)
  simp [BindingLocator.declarative, BindingLocator.environment, hm]

/-- Witness for C2 (amended) at `env_idx = 3`, `slot = 7`. -/
theorem binding_locator_roundtrip_witness :
    3 + 1 < u32Size ∧ 1 ≤ 3 ∧
    (BindingLocator.declarative "x" 3 7).environment = .Stack (3 - 1) ∧
    (BindingLocator.declarative "x" 3 7).binding_index = 7 := by
  have h : 3 + 1 < u32Size := by norm_num [u32Size]
  have h2 := binding_locator_roundtrip "x" 3 7 h
  exact ⟨h, by norm_num, h2.2.1 (by norm_num), h2.2.2.1⟩

/-! ## C3 -/

/-- C3 counterexample: with an Object environment on top of a declarative
record, `current_declarative_ref` returns `none` — it neither skips object
environments to reach the declarative record below nor falls back to the
global, so it is not None-free. -/
theorem current_declarative_ref_object_top_none :
    (EnvironmentStack.mk [.Declarative exLexical, .Object exObject] exGlobal
      []).current_declarative_ref = none := by
  rfl

/-- C3 amended: `current_declarative_ref` inspects only the top of the stack:
it returns the top record when the top is declarative, `none` when the top is
an Object environment, and the global only when the stack is empty. -/
theorem current_declarative_ref_top_cases (s : EnvironmentStack) :
    (s.stack = [] → s.current_declarative_ref = some s.global) ∧
    (∀ front d, s.stack = front ++ [.Declarative d] →
      s.current_declarative_ref = some d) ∧
    (∀ front o, s.stack = front ++ [.Object o] →
      s.current_declarative_ref = none) := by
  refine ⟨?_, ?_, ?_⟩
  · intro h
    simp [EnvironmentStack.current_declarative_ref, h]
  · intro front d h
    simp [EnvironmentStack.current_declarative_ref, h, List.getLast?_concat,
      Environment.as_declarative]
  · intro front o h
    simp [EnvironmentStack.current_declarative_ref, h, List.getLast?_concat,
      Environment.as_declarative]

/-- Witness for C3 (amended): a declarative top is returned as-is. -/
theorem current_declarative_ref_top_cases_witness :
    (EnvironmentStack.mk [.Object exObject, .Declarative exLexical] exGlobal
      []).current_declarative_ref = some exLexical :=
  (current_declarative_ref_top_cases _).2.1 [.Object exObject] exLexical rfl

/-! ## C7 -/

/-- The resolution loop succeeds iff some environment in the traversed list
contains the identifier. -/
theorem resolvePrivateLoop_isSome (n : JsString) (l : List PrivateEnvironment) :
    (resolvePrivateLoop n l).isSome ↔ ∃ e ∈ l, n ∈ e.descriptions := by
  induction l with
  | nil => simp [resolvePrivateLoop]
  | cons e rest ih =>
    by_cases h : n ∈ e.descriptions <;>
      simp [resolvePrivateLoop, h, ih]

/-- When the resolution loop returns a private name, it carries the traversed
identifier and the id of the first hit; everything before the hit misses. -/
theorem resolvePrivateLoop_eq_some (n : JsString) (l : List PrivateEnvironment)
    (p : PrivateName) (h : resolvePrivateLoop n l = some p) :
    p.description = n ∧
    ∃ front e back, l = front ++ e :: back ∧ n ∈ e.descriptions ∧ p.id = e.id ∧
      ∀ e' ∈ front, n ∉ e'.descriptions := by
  induction l with
  | nil => simp [resolvePrivateLoop] at h
  | cons e rest ih =>
    by_cases he : n ∈ e.descriptions
    · simp [resolvePrivateLoop, he, PrivateName.new] at h
      refine ⟨by simp [← h], [], e, rest, by simp, he, by simp [← h], by simp⟩
    · simp only [resolvePrivateLoop, he, if_false] at h
      obtain ⟨h1, front, e', back, h2, h3, h4, h5⟩ := ih h
      refine ⟨h1, e :: front, e', back, by simp [h2], h3, h4, ?_⟩
      intro x hx
      rcases List.mem_cons.mp hx with rfl | hx
      · exact he
      · exact h5 x hx

/-- C7: `resolve_private_identifier(n)` returns `Some` iff some environment on
the private stack contains `n` among its descriptions, and the returned
`PrivateName` carries `n` together with the id of the innermost (most recently
pushed) containing environment: the private stack splits around that
environment with no later-pushed environment containing `n`. -/
theorem resolve_private_identifier_innermost (s : EnvironmentStack) (n : JsString) :
    ((s.resolve_private_identifier n).isSome ↔
      ∃ e ∈ s.private_stack, n ∈ e.descriptions) ∧
    (∀ p, s.resolve_private_identifier n = some p →
      p.description = n ∧
      ∃ front e back, s.private_stack = front ++ e :: back ∧
        n ∈ e.descriptions ∧ p.id = e.id ∧
        ∀ e' ∈ back, n ∉ e'.descriptions) := by
  constructor
  · rw [EnvironmentStack.resolve_private_identifier, resolvePrivateLoop_isSome]
    constructor
    · rintro ⟨e, he, hn⟩
      exact ⟨e, List.mem_reverse.mp he, hn⟩
    · rintro ⟨e, he, hn⟩
      exact ⟨e, List.mem_reverse.mpr he, hn⟩
  · intro p hp
    obtain ⟨h1, front, e, back, h2, h3, h4, h5⟩ :=
      resolvePrivateLoop_eq_some n s.private_stack.reverse p hp
    refine ⟨h1, back.reverse, e, front.reverse, ?_, h3, h4, ?_⟩
    · have := congrArg List.reverse h2
      simpa [List.reverse_append] using this
    · intro e' he'
      exact h5 e' (List.mem_reverse.mp he')

/-- Witness for C7: two nested private environments both declaring `"x"`;
resolution returns the innermost id. -/
theorem resolve_private_identifier_innermost_witness :
    (PrivateName.mk "x" 2).description = "x" ∧
    ∃ front e back,
      ([⟨1, ["x"]⟩, ⟨2, ["x"]⟩] : List PrivateEnvironment) = front ++ e :: back ∧
      "x" ∈ e.descriptions ∧ (PrivateName.mk "x" 2).id = e.id ∧
      ∀ e' ∈ back, "x" ∉ e'.descriptions :=
  (resolve_private_identifier_innermost
      (EnvironmentStack.mk [] exGlobal [⟨1, ["x"]⟩, ⟨2, ["x"]⟩]) "x").2
    (PrivateName.mk "x" 2) (by decide)

/-! ## C8 -/

/-- C8: `pop_to_global` returns exactly the environments that were on the
stack, in order; afterwards `len() = 0`, while the global record and the
private-environment stack are left untouched. -/
theorem pop_to_global_spec (s : EnvironmentStack) :
    (s.pop_to_global).1 = s.stack ∧
    (s.pop_to_global).2.len = 0 ∧
    (s.pop_to_global).2.global = s.global ∧
    (s.pop_to_global).2.private_stack = s.private_stack :=
  ⟨rfl, rfl, rfl, rfl⟩

/-! ## C9 -/

/-- C9: on a global-object locator, `get_binding` runs the lazy `Array`
intrinsic initialization exactly when the locator's name is `"Array"` (once),
and then performs the property read (`try_get`) of that name on the global
object — the post-initialization one for `"Array"`, the untouched one for any
other name, with the context otherwise unchanged. -/
theorem get_binding_global_object_array_lazy_init (c : Context)
    (locator : BindingLocator) (h : locator.environment = .GlobalObject) :
    (c.get_binding locator).2.arrayInitCalls =
      c.arrayInitCalls + (if locator.name = "Array" then 1 else 0) ∧
    (c.get_binding locator).1 =
      (if locator.name = "Array" then c.install_array c.globalObject
        else c.globalObject).try_get locator.name ∧
    (locator.name ≠ "Array" → (c.get_binding locator).2 = c) := by
  by_cases hn : locator.name = "Array" <;>
    simp [Context.get_binding, h, hn, Context.arrayInit]

/-- Witness for C9 at the locator `global("Array")` on a concrete context. -/
theorem get_binding_global_object_array_lazy_init_witness :
    (BindingLocator.global "Array").environment = .GlobalObject ∧
    (exContext.get_binding (BindingLocator.global "Array")).2.arrayInitCalls =
      exContext.arrayInitCalls +
        (if (BindingLocator.global "Array").name = "Array" then 1 else 0) :=
  ⟨rfl,
    (get_binding_global_object_array_lazy_init exContext
      (BindingLocator.global "Array") rfl).1⟩

/-! ## C10 -/

/-- If every declarative record in the traversed list reports `Ok(None)` for
its own `this`, the `get_this_binding` loop falls through to `Ok(None)`. -/
theorem getThisBindingLoop_ok_none (l : List Environment)
    (h : ∀ d, Environment.Declarative d ∈ l → d.get_this_binding = .ok none) :
    getThisBindingLoop l = .ok none := by
  induction l with
  | nil => rfl
  | cons e rest ih =>
    cases e with
    | Declarative d =>
      have hd := h d (by simp)
      have hrest := ih fun d' hd' => h d' (List.mem_cons_of_mem _ hd')
      simp [getThisBindingLoop, hd, hrest]
    | Object o =>
      have hrest := ih fun d' hd' => h d' (List.mem_cons_of_mem _ hd')
      simpa [getThisBindingLoop] using hrest

/-- If no declarative record in the traversed list has a `this` binding, the
`get_this_environment` loop finds nothing. -/
theorem getThisEnvironmentLoop_none (l : List Environment)
    (h : ∀ d, Environment.Declarative d ∈ l → d.has_this_binding = false) :
    getThisEnvironmentLoop l = none := by
  induction l with
  | nil => rfl
  | cons e rest ih =>
    cases e with
    | Declarative d =>
      have hd := h d (by simp)
      have hrest := ih fun d' hd' => h d' (List.mem_cons_of_mem _ hd')
      simp [getThisEnvironmentLoop, Environment.as_declarative, hd, hrest]
    | Object o =>
      have hrest := ih fun d' hd' => h d' (List.mem_cons_of_mem _ hd')
      simpa [getThisEnvironmentLoop, Environment.as_declarative] using hrest

/-- C10: when no declarative record on the stack yields a `this` value (in
particular for stacks that are empty or hold only Object environments),
`EnvironmentStack::get_this_binding` returns `Ok(None)` without falling back
to the global record — even though `get_this_environment` in the very same
state does fall back to the global record's kind. -/
theorem get_this_binding_no_global_fallback (s : EnvironmentStack)
    (h1 : ∀ d, Environment.Declarative d ∈ s.stack → d.get_this_binding = .ok none)
    (h2 : ∀ d, Environment.Declarative d ∈ s.stack → d.has_this_binding = false) :
    s.get_this_binding = .ok none ∧ s.get_this_environment = s.global.kind := by
  constructor
  · exact getThisBindingLoop_ok_none s.stack.reverse
      fun d hd => h1 d (List.mem_reverse.mp hd)
  · rw [EnvironmentStack.get_this_environment,
      getThisEnvironmentLoop_none s.stack.reverse
        fun d hd => h2 d (List.mem_reverse.mp hd)]

/-- Witness for C10: a stack holding only an Object environment, over a global
whose own `this` binding is a value — the stack-level read still yields
`Ok(None)` while `get_this_environment` reports the global kind. -/
theorem get_this_binding_no_global_fallback_witness :
    (EnvironmentStack.mk [.Object exObject] exGlobal []).get_this_binding =
        .ok none ∧
      (EnvironmentStack.mk [.Object exObject] exGlobal []).get_this_environment =
        (EnvironmentStack.mk [.Object exObject] exGlobal []).global.kind :=
  get_this_binding_no_global_fallback (EnvironmentStack.mk [.Object exObject] exGlobal [])
    (fun d hd => by simp at hd) (fun d hd => by simp at hd)

/-! ## C5 -/

/-- The nearest enclosing declarative record of a stack state: the innermost
declarative record on the stack, skipping Object environments, or the global
record when the stack holds none. -/
def enclosingDeclarative (s : EnvironmentStack) : DeclarativeEnvironment :=
  (s.stack.reverse.findSome? Environment.as_declarative).getD s.global

/-- Whether the current top of the stack is an Object environment. -/
def topIsObjectEnvironment (s : EnvironmentStack) : Bool :=
  match s.stack.getLast? with
  | some env => env.as_declarative.isNone
  | none => false

/-- The flag pair computed on push is exactly (enclosing poisoned,
top-is-object OR enclosing with). -/
theorem inheritedFlags_eq (s : EnvironmentStack) :
    s.inheritedFlags =
      ((enclosingDeclarative s).poisoned,
        topIsObjectEnvironment s || (enclosingDeclarative s).isWith) := rfl

/-- C5: the record created by `push_lexical` has `with() = true` whenever the
current top of the stack is an Object environment, and otherwise inherits the
`with()` of the nearest enclosing declarative record (the global if none); its
poisoned flag always equals that enclosing record's `poisoned()`. -/
theorem push_lexical_flag_inheritance (s : EnvironmentStack)
    (ce : CompileTimeEnvironment) (d : DeclarativeEnvironment)
    (h : ((s.push_lexical ce).2).stack.getLast? = some (.Declarative d)) :
    d.poisoned = (enclosingDeclarative s).poisoned ∧
    (topIsObjectEnvironment s = true → d.isWith = true) ∧
    (topIsObjectEnvironment s = false →
      d.isWith = (enclosingDeclarative s).isWith) := by
  have hs : ((s.push_lexical ce).2).stack =
      s.stack ++
        [.Declarative
          (DeclarativeEnvironment.newLexical ce.num_bindings s.inheritedFlags.1
            s.inheritedFlags.2 ce)] := rfl
  rw [hs, List.getLast?_concat] at h
  have hd : d =
      DeclarativeEnvironment.newLexical ce.num_bindings s.inheritedFlags.1
        s.inheritedFlags.2 ce := by
    injection h with h'
    injection h' with h''
    exact h''.symm
  subst hd
  rw [inheritedFlags_eq]
  refine ⟨rfl, ?_, ?_⟩
  · intro ht
    simp [DeclarativeEnvironment.newLexical, ht]
  · intro ht
    simp [DeclarativeEnvironment.newLexical, ht]

/-- Witness for C5: pushing a lexical scope over an Object-environment top
(over a flag-clear global) yields a record with `with() = true` and
`poisoned() = false`. -/
theorem push_lexical_flag_inheritance_witness :
    ((EnvironmentStack.mk [.Object exObject] exGlobal []).push_lexical
      exCompileEnv).2.stack.getLast? =
        some (.Declarative (DeclarativeEnvironment.newLexical 0 false true
          exCompileEnv)) ∧
    (DeclarativeEnvironment.newLexical 0 false true exCompileEnv).poisoned =
      (enclosingDeclarative (EnvironmentStack.mk [.Object exObject] exGlobal
        [])).poisoned ∧
    (topIsObjectEnvironment (EnvironmentStack.mk [.Object exObject] exGlobal []) =
        true →
      (DeclarativeEnvironment.newLexical 0 false true exCompileEnv).isWith = true) :=
  ⟨rfl,
    (push_lexical_flag_inheritance (EnvironmentStack.mk [.Object exObject] exGlobal [])
        exCompileEnv _ rfl).1,
    fun ht =>
      (push_lexical_flag_inheritance (EnvironmentStack.mk [.Object exObject] exGlobal [])
        exCompileEnv _ rfl).2.1 ht⟩

/-! ## C4 -/

/-- Whether a stack entry is a Function-kind declarative record. -/
def isFunctionKindEntry : Environment → Bool
  | .Declarative d =>
    match d.kind with
    | .Function _ => true
    | _ => false
  | .Object _ => false

/-- Whether a stack entry is a declarative record whose compile environment is
a function scope — the stop condition checked by
`poison_until_last_function`. -/
def isFunctionScopeEntry : Environment → Bool
  | .Declarative d => d.compile_env.is_function
  | .Object _ => false

/-- Poison a declarative stack entry; Object entries are untouched. -/
def poisonEntry : Environment → Environment
  | .Declarative d => .Declarative d.poison
  | .Object o => .Object o

/-- Index of the first entry satisfying a predicate. -/
def firstIdxWhere (p : Environment → Bool) : List Environment → Option Nat
  | [] => none
  | e :: rest => if p e then some 0 else (firstIdxWhere p rest).map (· + 1)

/-- Two pointwise-agreeing predicates find the same first index. -/
theorem firstIdxWhere_congr {p q : Environment → Bool} (l : List Environment)
    (h : ∀ e ∈ l, p e = q e) : firstIdxWhere p l = firstIdxWhere q l := by
  induction l with
  | nil => rfl
  | cons e rest ih =>
    rw [firstIdxWhere, firstIdxWhere, h e (by simp),
      ih fun e' he' => h e' (List.mem_cons_of_mem _ he')]

/-- When the walk finds a function scope at position `k` (top-down), the
poison loop stops there: the first `k + 1` entries are poisoned, the rest are
returned unchanged. -/
theorem poisonUntilLoop_of_first_some (l : List Environment) (k : Nat)
    (h : firstIdxWhere isFunctionScopeEntry l = some k) :
    (poisonUntilLoop l).2 = true ∧
    (poisonUntilLoop l).1 = (l.take (k + 1)).map poisonEntry ++ l.drop (k + 1) := by
  induction l generalizing k with
  | nil => simp [firstIdxWhere] at h
  | cons e rest ih =>
    cases e with
    | Declarative d =>
      by_cases hf : d.compile_env.is_function
      · rw [firstIdxWhere, if_pos (by simpa [isFunctionScopeEntry] using hf)] at h
        injection h with h
        subst h
        simp [poisonUntilLoop, hf, poisonEntry]
      · rw [firstIdxWhere, if_neg (by simpa [isFunctionScopeEntry] using hf)] at h
        obtain ⟨k', hk', rfl⟩ := Option.map_eq_some'.mp h
        obtain ⟨ih1, ih2⟩ := ih k' hk'
        simp [poisonUntilLoop, hf, ih1, ih2, poisonEntry]
    | Object o =>
      rw [firstIdxWhere, if_neg (by simp [isFunctionScopeEntry])] at h
      obtain ⟨k', hk', rfl⟩ := Option.map_eq_some'.mp h
      obtain ⟨ih1, ih2⟩ := ih k' hk'
      simp [poisonUntilLoop, ih1, ih2, poisonEntry]

/-- When no function scope is on the walked stack, the poison loop poisons
every declarative entry and reports that it never stopped. -/
theorem poisonUntilLoop_of_first_none (l : List Environment)
    (h : firstIdxWhere isFunctionScopeEntry l = none) :
    (poisonUntilLoop l).2 = false ∧
    (poisonUntilLoop l).1 = l.map poisonEntry := by
  induction l with
  | nil => simp [poisonUntilLoop]
  | cons e rest ih =>
    cases e with
    | Declarative d =>
      by_cases hf : d.compile_env.is_function
      · rw [firstIdxWhere, if_pos (by simpa [isFunctionScopeEntry] using hf)] at h
        cases h
      · rw [firstIdxWhere, if_neg (by simpa [isFunctionScopeEntry] using hf)] at h
        obtain ⟨ih1, ih2⟩ := ih (by simpa using h)
        simp [poisonUntilLoop, hf, ih1, ih2, poisonEntry]
    | Object o =>
      rw [firstIdxWhere, if_neg (by simp [isFunctionScopeEntry])] at h
      obtain ⟨ih1, ih2⟩ := ih (by simpa using h)
      simp [poisonUntilLoop, ih1, ih2, poisonEntry]

/-- C4: writing the stack top-down (`s.stack.reverse`), when the nearest
Function-kind record sits at top-down position `k` (records on the stack
agreeing that Function kind coincides with a function compile scope),
`poison_until_last_function` poisons exactly the records above and including
it — entries `0..k` become their `poisonEntry` image (declarative records get
`poisoned() = true`, all other state kept) — while every entry strictly below
and the global record are left unchanged; when no Function record is on the
stack, every entry is poisoned and the global record is poisoned as well. -/
theorem poison_until_last_function_spec (s : EnvironmentStack)
    (hk : ∀ e ∈ s.stack, isFunctionKindEntry e = isFunctionScopeEntry e) :
    (match firstIdxWhere isFunctionKindEntry s.stack.reverse with
     | some k =>
       (s.poison_until_last_function).stack.reverse =
         (s.stack.reverse.take (k + 1)).map poisonEntry ++
           s.stack.reverse.drop (k + 1) ∧
       (s.poison_until_last_function).global = s.global
     | none =>
       (s.poison_until_last_function).stack.reverse =
         s.stack.reverse.map poisonEntry ∧
       (s.poison_until_last_function).global = s.global.poison) := by
  have hcong : firstIdxWhere isFunctionKindEntry s.stack.reverse =
      firstIdxWhere isFunctionScopeEntry s.stack.reverse :=
    firstIdxWhere_congr _ fun e he => hk e (List.mem_reverse.mp he)
  cases h : firstIdxWhere isFunctionKindEntry s.stack.reverse with
  | some k =>
    obtain ⟨h1, h2⟩ := poisonUntilLoop_of_first_some s.stack.reverse k (hcong ▸ h)
    simp only [EnvironmentStack.poison_until_last_function, h1, if_true]
    exact ⟨by rw [List.reverse_reverse, h2], trivial⟩
  | none =>
    obtain ⟨h1, h2⟩ := poisonUntilLoop_of_first_none s.stack.reverse (hcong ▸ h)
    simp only [EnvironmentStack.poison_until_last_function, h1, Bool.false_eq_true,
      if_false]
    exact ⟨by rw [List.reverse_reverse, h2], trivial⟩

/-- A compile-time environment marked as a function scope, for examples. -/
def exFunCompileEnv : CompileTimeEnvironment :=
  { num_bindings := 0, is_function := true, get_binding := fun _ => none }

/-- A concrete Function-kind record whose compile environment is a function
scope. -/
def exFunction : DeclarativeEnvironment :=
  { kind := .Function ⟨.undefined, .Initialized, none, none⟩
    poisoned := false, isWith := false, bindings := [], compile_env := exFunCompileEnv }

/-- Witness for C4: a lexical record above a function record — poisoning stops
at the function record (top-down position 1) and the global stays untouched. -/
theorem poison_until_last_function_spec_witness :
    (match
        firstIdxWhere isFunctionKindEntry
          (EnvironmentStack.mk [.Declarative exFunction, .Declarative exLexical]
            exGlobal []).stack.reverse with
     | some k =>
       ((EnvironmentStack.mk [.Declarative exFunction, .Declarative exLexical]
           exGlobal []).poison_until_last_function).stack.reverse =
         ((EnvironmentStack.mk [.Declarative exFunction, .Declarative exLexical]
             exGlobal []).stack.reverse.take (k + 1)).map poisonEntry ++
           (EnvironmentStack.mk [.Declarative exFunction, .Declarative exLexical]
             exGlobal []).stack.reverse.drop (k + 1) ∧
       ((EnvironmentStack.mk [.Declarative exFunction, .Declarative exLexical]
           exGlobal []).poison_until_last_function).global = exGlobal
     | none =>
       ((EnvironmentStack.mk [.Declarative exFunction, .Declarative exLexical]
           exGlobal []).poison_until_last_function).stack.reverse =
         (EnvironmentStack.mk [.Declarative exFunction, .Declarative exLexical]
           exGlobal []).stack.reverse.map poisonEntry ∧
       ((EnvironmentStack.mk [.Declarative exFunction, .Declarative exLexical]
           exGlobal []).poison_until_last_function).global = exGlobal.poison) :=
  poison_until_last_function_spec
    (EnvironmentStack.mk [.Declarative exFunction, .Declarative exLexical] exGlobal [])
    (by
      intro e he
      simp only [List.mem_cons, List.not_mem_nil, or_false] at he
      rcases he with rfl | rfl <;> rfl)

/-! ## C6 -/

/-- Modelled from the spec: the effect of `DeclarativeEnvironment::poison`
invoked on the record at stack index `i` (in Rust any holder of the shared
record may call it; the stack-position form is the state-level analogue). -/
def EnvironmentStack.poison_at (s : EnvironmentStack) (i : Nat) : EnvironmentStack :=
  match s.stack.get? i with
  | some (.Declarative d) => { s with stack := s.stack.set i (.Declarative d.poison) }
  | _ => s

/-- The operations of the subsystem acting on a context: scope management,
poisoning, the private stack, and the locator-driven reads and writes. -/
inductive SubsystemOp where
  | push_lexical (ce : CompileTimeEnvironment)
  | push_function (ce : CompileTimeEnvironment) (slots : FunctionSlots)
  | push_module (ce : CompileTimeEnvironment)
  | push_object (o : JsObjectModel)
  | pop
  | pop_to_global
  | truncate (n : Nat)
  | extend (envs : List Environment)
  | push_private (e : PrivateEnvironment)
  | pop_private
  | poison (i : Nat)
  | poison_until_last_function
  | put_lexical_value (env : BindingLocatorEnvironment) (i : Nat) (v : JsValue)
  | put_value_if_uninitialized (env : BindingLocatorEnvironment) (i : Nat) (v : JsValue)
  | find_runtime_binding (l : BindingLocator)
  | get_binding (l : BindingLocator)
  | set_binding (l : BindingLocator) (v : JsValue) (strict : Bool)
  | is_initialized_binding (l : BindingLocator)
  | delete_binding (l : BindingLocator)

/-- State effect of each operation on the context (return values dropped;
`find_runtime_binding` rewrites only the locator, and the pure reads leave the
context unchanged). -/
def SubsystemOp.apply (op : SubsystemOp) (c : Context) : Context :=
  match op with
  | .push_lexical ce => { c with environments := (c.environments.push_lexical ce).2 }
  | .push_function ce slots =>
    { c with environments := c.environments.push_function ce slots }
  | .push_module ce => { c with environments := c.environments.push_module ce }
  | .push_object o => { c with environments := c.environments.push_object o }
  | .pop => { c with environments := c.environments.pop }
  | .pop_to_global => { c with environments := (c.environments.pop_to_global).2 }
  | .truncate n => { c with environments := c.environments.truncate n }
  | .extend envs => { c with environments := c.environments.extend envs }
  | .push_private e => { c with environments := c.environments.push_private e }
  | .pop_private => { c with environments := c.environments.pop_private }
  | .poison i => { c with environments := c.environments.poison_at i }
  | .poison_until_last_function =>
    { c with environments := c.environments.poison_until_last_function }
  | .put_lexical_value env i v =>
    { c with environments := c.environments.put_lexical_value env i v }
  | .put_value_if_uninitialized env i v =>
    { c with environments := c.environments.put_value_if_uninitialized env i v }
  | .find_runtime_binding _ => c
  | .get_binding l => (c.get_binding l).2
  | .set_binding l v strict => (c.set_binding l v strict).2
  | .is_initialized_binding _ => c
  | .delete_binding _ => c

/-- Flag order on declarative records: true flags stay true. -/
def declFlagsLe (d d' : DeclarativeEnvironment) : Prop :=
  (d.poisoned = true → d'.poisoned = true) ∧ (d.isWith = true → d'.isWith = true)

/-- Flag order on optional stack entries: a declarative record present at a
position before and after a step keeps its true flags; positions that appear,
disappear or hold object environments carry no constraint. -/
def entryFlagsLe : Option Environment → Option Environment → Prop
  | some (.Declarative d), some (.Declarative d') => declFlagsLe d d'
  | _, _ => True

theorem declFlagsLe_refl (d : DeclarativeEnvironment) : declFlagsLe d d :=
  ⟨id, id⟩

theorem declFlagsLe_poison (d : DeclarativeEnvironment) : declFlagsLe d d.poison :=
  ⟨fun _ => rfl, id⟩

theorem declFlagsLe_set (d : DeclarativeEnvironment) (i : Nat) (v : JsValue) :
    declFlagsLe d (d.set i v) :=
  ⟨id, id⟩

theorem entryFlagsLe_decl (d d' : DeclarativeEnvironment) (h : declFlagsLe d d') :
    entryFlagsLe (some (.Declarative d)) (some (.Declarative d')) := h

theorem entryFlagsLe_refl (x : Option Environment) : entryFlagsLe x x := by
  cases x with
  | none => trivial
  | some e =>
    cases e with
    | Declarative d => exact entryFlagsLe_decl d d (declFlagsLe_refl d)
    | Object o => trivial

theorem entryFlagsLe_none_left (b : Option Environment) : entryFlagsLe none b := by
  cases b with
  | none => trivial
  | some e => cases e <;> trivial

theorem entryFlagsLe_none_right (a : Option Environment) : entryFlagsLe a none := by
  cases a with
  | none => trivial
  | some e => cases e <;> trivial

theorem entryFlagsLe_append (l l2 : List Environment) (i : Nat) :
    entryFlagsLe l[i]? (l ++ l2)[i]? := by
  rw [List.getElem?_append]
  by_cases h : i < l.length
  · rw [if_pos h]
    exact entryFlagsLe_refl _
  · rw [if_neg h, List.getElem?_eq_none (Nat.le_of_not_lt h)]
    exact entryFlagsLe_none_left _

theorem entryFlagsLe_take (l : List Environment) (n i : Nat) :
    entryFlagsLe l[i]? (l.take n)[i]? := by
  rw [List.getElem?_take]
  by_cases h : i < n
  · rw [if_pos h]
    exact entryFlagsLe_refl _
  · rw [if_neg h]
    exact entryFlagsLe_none_right _

theorem entryFlagsLe_dropLast (l : List Environment) (i : Nat) :
    entryFlagsLe l[i]? l.dropLast[i]? := by
  rw [List.dropLast_eq_take]
  exact entryFlagsLe_take _ _ _

theorem entryFlagsLe_set_of_le (l : List Environment) (j i : Nat) (e e' : Environment)
    (hj : l[j]? = some e) (he : entryFlagsLe (some e) (some e')) :
    entryFlagsLe l[i]? (l.set j e')[i]? := by
  rw [List.getElem?_set]
  by_cases h : j = i
  · subst h
    obtain ⟨hlt, -⟩ := List.getElem?_eq_some.mp hj
    rw [if_pos rfl, if_pos hlt, hj]
    exact he
  · rw [if_neg h]
    exact entryFlagsLe_refl _

theorem entryFlagsLe_reverse (a b : List Environment) (hlen : a.length = b.length)
    (h : ∀ j : Nat, entryFlagsLe a[j]? b[j]?) (i : Nat) :
    entryFlagsLe a.reverse[i]? b.reverse[i]? := by
  by_cases hi : i < a.length
  · have hib : i < b.length := hlen ▸ hi
    have hb : b.length - 1 - i = a.length - 1 - i := by rw [hlen]
    rw [List.getElem?_reverse hi, List.getElem?_reverse hib, hb]
    exact h _
  · rw [List.getElem?_eq_none (by simpa using Nat.le_of_not_lt hi)]
    exact entryFlagsLe_none_left _

theorem poisonUntilLoop_cons_decl_fun (d : DeclarativeEnvironment)
    (rest : List Environment) (hf : d.compile_env.is_function = true) :
    poisonUntilLoop (.Declarative d :: rest) = (.Declarative d.poison :: rest, true) := by
  simp [poisonUntilLoop, hf]

theorem poisonUntilLoop_cons_decl_notfun (d : DeclarativeEnvironment)
    (rest : List Environment) (hf : d.compile_env.is_function = false) :
    poisonUntilLoop (.Declarative d :: rest) =
      (.Declarative d.poison :: (poisonUntilLoop rest).1, (poisonUntilLoop rest).2) := by
  simp [poisonUntilLoop, hf]

theorem poisonUntilLoop_cons_obj (o : JsObjectModel) (rest : List Environment) :
    poisonUntilLoop (.Object o :: rest) =
      (.Object o :: (poisonUntilLoop rest).1, (poisonUntilLoop rest).2) := rfl

theorem poisonUntilLoop_length (l : List Environment) :
    (poisonUntilLoop l).1.length = l.length := by
  induction l with
  | nil => rfl
  | cons e rest ih =>
    cases e with
    | Declarative d =>
      by_cases hf : d.compile_env.is_function
      · rw [poisonUntilLoop_cons_decl_fun d rest hf]
        simp
      · rw [poisonUntilLoop_cons_decl_notfun d rest (by simpa using hf)]
        simp [ih]
    | Object o =>
      rw [poisonUntilLoop_cons_obj]
      simp [ih]

theorem poisonUntilLoop_pointwise (l : List Environment) (j : Nat) :
    entryFlagsLe l[j]? (poisonUntilLoop l).1[j]? := by
  induction l generalizing j with
  | nil => exact entryFlagsLe_none_left _
  | cons e rest ih =>
    cases e with
    | Declarative d =>
      by_cases hf : d.compile_env.is_function
      · rw [poisonUntilLoop_cons_decl_fun d rest hf]
        cases j with
        | zero =>
          simp only [List.getElem?_cons_zero]
          exact entryFlagsLe_decl _ _ (declFlagsLe_poison d)
        | succ j' =>
          simp only [List.getElem?_cons_succ]
          exact entryFlagsLe_refl _
      · rw [poisonUntilLoop_cons_decl_notfun d rest (by simpa using hf)]
        cases j with
        | zero =>
          simp only [List.getElem?_cons_zero]
          exact entryFlagsLe_decl _ _ (declFlagsLe_poison d)
        | succ j' =>
          simp only [List.getElem?_cons_succ]
          exact ih j'
    | Object o =>
      rw [poisonUntilLoop_cons_obj]
      cases j with
      | zero =>
        simp only [List.getElem?_cons_zero]
        trivial
      | succ j' =>
        simp only [List.getElem?_cons_succ]
        exact ih j'

/-- `get_binding` never touches the environment stack or records (it only
initializes the `Array` intrinsic and reads). -/
theorem get_binding_environments (c : Context) (l : BindingLocator) :
    ((c.get_binding l).2).environments = c.environments := by
  unfold Context.get_binding
  cases h : l.environment with
  | GlobalObject =>
    simp only [h]
    by_cases hn : l.name = "Array" <;> simp [hn, Context.arrayInit]
  | GlobalDeclarative => simp only [h]
  | Stack index =>
    simp only [h]
    cases he : c.environment_expect index with
    | none => simp only [he]
    | some e => cases e <;> simp only [he]

/-- `set_binding` can only write binding values: positionally, stack records
keep their flags, and the global record keeps its flags. -/
theorem set_binding_flags (c : Context) (l : BindingLocator) (v : JsValue)
    (strict : Bool) (i : Nat) :
    entryFlagsLe c.environments.stack[i]?
        ((c.set_binding l v strict).2).environments.stack[i]? ∧
      declFlagsLe c.environments.global
        ((c.set_binding l v strict).2).environments.global := by
  unfold Context.set_binding
  cases h : l.environment with
  | GlobalObject =>
    simp only [h]
    exact ⟨entryFlagsLe_refl _, declFlagsLe_refl _⟩
  | GlobalDeclarative =>
    simp only [h]
    exact ⟨entryFlagsLe_refl _, declFlagsLe_set _ _ _⟩
  | Stack index =>
    simp only [h]
    cases he : c.environment_expect index with
    | none =>
      simp only [he]
      exact ⟨entryFlagsLe_refl _, declFlagsLe_refl _⟩
    | some e =>
      cases e with
      | Declarative decl =>
        simp only [he]
        refine ⟨?_, declFlagsLe_refl _⟩
        refine entryFlagsLe_set_of_le _ _ _ _ _ ?_
          (entryFlagsLe_decl _ _ (declFlagsLe_set decl l.binding_index v))
        rw [← List.get?_eq_getElem?]
        exact he
      | Object obj =>
        simp only [he]
        exact ⟨entryFlagsLe_refl _, declFlagsLe_refl _⟩

/-- C6: the sticky flags are monotone — across every operation of the
subsystem (scope pushes and pops, stack surgery, poisoning, the private-stack
operations and the locator-driven reads and writes), a declarative record that
survives the step at its stack position never has `poisoned()` or `with()`
reset from true to false, and neither does the global record; over any
operation sequence, monotonicity follows by transitivity. -/
theorem sticky_flags_monotone (op : SubsystemOp) (c : Context) (i : Nat) :
    entryFlagsLe c.environments.stack[i]? ((op.apply c).environments.stack[i]? ) ∧
    declFlagsLe c.environments.global ((op.apply c).environments.global) := by
  cases op with
  | push_lexical ce =>
    simp only [SubsystemOp.apply, EnvironmentStack.push_lexical]
    exact ⟨entryFlagsLe_append _ _ _, declFlagsLe_refl _⟩
  | push_function ce slots =>
    simp only [SubsystemOp.apply, EnvironmentStack.push_function]
    exact ⟨entryFlagsLe_append _ _ _, declFlagsLe_refl _⟩
  | push_module ce =>
    simp only [SubsystemOp.apply, EnvironmentStack.push_module]
    exact ⟨entryFlagsLe_append _ _ _, declFlagsLe_refl _⟩
  | push_object o =>
    simp only [SubsystemOp.apply, EnvironmentStack.push_object]
    exact ⟨entryFlagsLe_append _ _ _, declFlagsLe_refl _⟩
  | pop =>
    simp only [SubsystemOp.apply, EnvironmentStack.pop]
    exact ⟨entryFlagsLe_dropLast _ _, declFlagsLe_refl _⟩
  | pop_to_global =>
    simp only [SubsystemOp.apply, EnvironmentStack.pop_to_global]
    exact ⟨by rw [List.getElem?_nil]; exact entryFlagsLe_none_right _, declFlagsLe_refl _⟩
  | truncate n =>
    simp only [SubsystemOp.apply, EnvironmentStack.truncate]
    exact ⟨entryFlagsLe_take _ _ _, declFlagsLe_refl _⟩
  | extend envs =>
    simp only [SubsystemOp.apply, EnvironmentStack.extend]
    exact ⟨entryFlagsLe_append _ _ _, declFlagsLe_refl _⟩
  | push_private e =>
    simp only [SubsystemOp.apply, EnvironmentStack.push_private]
    exact ⟨entryFlagsLe_refl _, declFlagsLe_refl _⟩
  | pop_private =>
    simp only [SubsystemOp.apply, EnvironmentStack.pop_private]
    exact ⟨entryFlagsLe_refl _, declFlagsLe_refl _⟩
  | poison j =>
    simp only [SubsystemOp.apply, EnvironmentStack.poison_at]
    cases hm : c.environments.stack.get? j with
    | none =>
      simp only [hm]
      exact ⟨entryFlagsLe_refl _, declFlagsLe_refl _⟩
    | some e =>
      cases e with
      | Declarative d =>
        simp only [hm]
        refine ⟨?_, declFlagsLe_refl _⟩
        refine entryFlagsLe_set_of_le _ _ _ _ _ ?_
          (entryFlagsLe_decl _ _ (declFlagsLe_poison d))
        rw [← List.get?_eq_getElem?]
        exact hm
      | Object o =>
        simp only [hm]
        exact ⟨entryFlagsLe_refl _, declFlagsLe_refl _⟩
  | poison_until_last_function =>
    have hpt := poisonUntilLoop_pointwise c.environments.stack.reverse
    have hlen := (poisonUntilLoop_length c.environments.stack.reverse).symm
    have hrev := entryFlagsLe_reverse _ _ hlen hpt i
    rw [List.reverse_reverse] at hrev
    simp only [SubsystemOp.apply, EnvironmentStack.poison_until_last_function]
    by_cases hb : (poisonUntilLoop c.environments.stack.reverse).2 = true
    · simp only [hb, if_true]
      exact ⟨hrev, declFlagsLe_refl _⟩
    · simp only [Bool.not_eq_true] at hb
      simp only [hb, Bool.false_eq_true, if_false]
      exact ⟨hrev, declFlagsLe_poison _⟩
  | put_lexical_value env j v =>
    simp only [SubsystemOp.apply, EnvironmentStack.put_lexical_value]
    cases env with
    | GlobalObject => exact ⟨entryFlagsLe_refl _, declFlagsLe_set _ _ _⟩
    | GlobalDeclarative => exact ⟨entryFlagsLe_refl _, declFlagsLe_set _ _ _⟩
    | Stack index =>
      cases hm : c.environments.stack.get? index with
      | none =>
        simp only [hm]
        exact ⟨entryFlagsLe_refl _, declFlagsLe_refl _⟩
      | some e =>
        cases e with
        | Declarative d =>
          simp only [hm]
          refine ⟨?_, declFlagsLe_refl _⟩
          refine entryFlagsLe_set_of_le _ _ _ _ _ ?_
            (entryFlagsLe_decl _ _ (declFlagsLe_set d j v))
          rw [← List.get?_eq_getElem?]
          exact hm
        | Object o =>
          simp only [hm]
          exact ⟨entryFlagsLe_refl _, declFlagsLe_refl _⟩
  | put_value_if_uninitialized env j v =>
    simp only [SubsystemOp.apply, EnvironmentStack.put_value_if_uninitialized]
    cases env with
    | GlobalObject =>
      by_cases hu : (c.environments.global.get j).isNone <;>
        simp only [hu, if_true, if_false] <;>
        exact ⟨entryFlagsLe_refl _, by first | exact declFlagsLe_set _ _ _ | exact declFlagsLe_refl _⟩
    | GlobalDeclarative =>
      by_cases hu : (c.environments.global.get j).isNone <;>
        simp only [hu, if_true, if_false] <;>
        exact ⟨entryFlagsLe_refl _, by first | exact declFlagsLe_set _ _ _ | exact declFlagsLe_refl _⟩
    | Stack index =>
      cases hm : c.environments.stack.get? index with
      | none =>
        simp only [hm]
        exact ⟨entryFlagsLe_refl _, declFlagsLe_refl _⟩
      | some e =>
        cases e with
        | Declarative d =>
          simp only [hm]
          by_cases hu : (d.get j).isNone
          · simp only [hu, if_true]
            refine ⟨?_, declFlagsLe_refl _⟩
            refine entryFlagsLe_set_of_le _ _ _ _ _ ?_
              (entryFlagsLe_decl _ _ (declFlagsLe_set d j v))
            rw [← List.get?_eq_getElem?]
            exact hm
          · simp only [hu, if_false]
            exact ⟨entryFlagsLe_refl _, declFlagsLe_refl _⟩
        | Object o =>
          simp only [hm]
          exact ⟨entryFlagsLe_refl _, declFlagsLe_refl _⟩
  | find_runtime_binding l =>
    exact ⟨entryFlagsLe_refl _, declFlagsLe_refl _⟩
  | get_binding l =>
    simp only [SubsystemOp.apply]
    rw [get_binding_environments]
    exact ⟨entryFlagsLe_refl _, declFlagsLe_refl _⟩
  | set_binding l v strict =>
    simp only [SubsystemOp.apply]
    exact set_binding_flags c l v strict i
  | is_initialized_binding l =>
    exact ⟨entryFlagsLe_refl _, declFlagsLe_refl _⟩
  | delete_binding l =>
    exact ⟨entryFlagsLe_refl _, declFlagsLe_refl _⟩

/-- Witness for C6: instantiation at a concrete poisoning step over a
one-record stack. -/
theorem sticky_flags_monotone_witness :
    entryFlagsLe
        (Context.mk (EnvironmentStack.mk [.Declarative exLexical] exGlobal [])
          exObject id 0).environments.stack[0]?
        (((SubsystemOp.poison_until_last_function).apply
          (Context.mk (EnvironmentStack.mk [.Declarative exLexical] exGlobal [])
            exObject id 0)).environments.stack[0]? ) ∧
      declFlagsLe
        (Context.mk (EnvironmentStack.mk [.Declarative exLexical] exGlobal [])
          exObject id 0).environments.global
        (((SubsystemOp.poison_until_last_function).apply
          (Context.mk (EnvironmentStack.mk [.Declarative exLexical] exGlobal [])
            exObject id 0)).environments.global) :=
  sticky_flags_monotone SubsystemOp.poison_until_last_function
    (Context.mk (EnvironmentStack.mk [.Declarative exLexical] exGlobal []) exObject id 0) 0
